import Mathlib

/-!
Shallow embedding of the Goodreads-Scraper repository
(`src/utils/utils.py` and `src/scraper/scrape.py`).

Pure string manipulation from the Python source is modelled over `String`
and `List Char`.  Python primitives (`str.split`, `int(...)`, `float(...)`,
`str.isdigit`, `urllib.parse.urlparse` / `urlunparse`) are modelled over
the documented character fragment each call site exercises; in particular
`str.isdigit` also covers representative non-ASCII digit characters, which
separate `isdigit` acceptance from `int` acceptance.  Machine floats are
modelled as exact rationals of the plain decimal fragment.  Stateful Selenium interaction is
modelled by explicit environments: the incremental-load loop is a function
of the sequence of progress reads it observes, and the orchestrator is a
function of an environment recording which waits succeed and which raw book
rows the page yields, returning its result together with the trace of
session events it performs.
-/

/- ### Character predicates -/

/-- An ASCII decimal digit `0`-`9`: the digit alphabet of the numeric URL
segments (`\d` in the source's regexes matches more, but the ids the
claims quantify over are ASCII) and of the status-count fields. -/
def isDig (c : Char) : Bool := decide (48 ≤ c.toNat ∧ c.toNat ≤ 57)

/-- The decimal value of a Unicode decimal-digit character (category Nd),
exactly the characters Python `int` accepts inside a number: modelled for
ASCII `0`-`9` and, as non-ASCII representatives, the Arabic-Indic digits
U+0660-U+0669.  Other Nd blocks behave like the Arabic-Indic ones and are
outside the model. -/
def pyDigitVal (c : Char) : Option Nat :=
  if 48 ≤ c.toNat ∧ c.toNat ≤ 57 then some (c.toNat - 48)
  else if 0x660 ≤ c.toNat ∧ c.toNat ≤ 0x669 then some (c.toNat - 0x660)
  else none

/-- Python `str.isdigit` on one character: true for every decimal digit
(category Nd, via `pyDigitVal`) and also for digit characters of category
No such as the superscripts `¹` (U+00B9), `²` (U+00B2), `³` (U+00B3) and
`⁰`, `⁴`-`⁹` (U+2070, U+2074-U+2079), which `isdigit` accepts although
`int` rejects them.  Further No/subscript digit characters behave like
these representatives and are outside the model. -/
def pyIsDigit (c : Char) : Bool :=
  (pyDigitVal c).isSome ||
    decide (c.toNat = 0xB9 ∨ c.toNat = 0xB2 ∨ c.toNat = 0xB3 ∨
      c.toNat = 0x2070 ∨ (0x2074 ≤ c.toNat ∧ c.toNat ≤ 0x2079))

/-- Python whitespace for `str.split()` / `int` stripping (ASCII subset). -/
def pyIsSpace (c : Char) : Bool :=
  decide (c = ' ' ∨ c = '\t' ∨ c = '\n' ∨ c = '\x0b' ∨ c = '\x0c' ∨ c = '\r')

/-- ASCII lower-casing, modelling Python `str.lower` / `re.IGNORECASE`
on the ASCII characters the scraper's URLs consist of. -/
def pyLower (c : Char) : Char :=
  if 65 ≤ c.toNat ∧ c.toNat ≤ 90 then Char.ofNat (c.toNat + 32) else c

def isColon (c : Char) : Bool := decide (c = ':')

def isSlash (c : Char) : Bool := decide (c = '/')

def isDot (c : Char) : Bool := decide (c = '.')

def isHash (c : Char) : Bool := decide (c = '#')

def isQmark (c : Char) : Bool := decide (c = '?')

/-- End of the netloc portion of a URL: `/`, `?` or `#`. -/
def isNetlocEnd (c : Char) : Bool := decide (c = '/' ∨ c = '?' ∨ c = '#')

/-- End of the host portion for the URL validator: `/` or `?`. -/
def isHostEnd (c : Char) : Bool := decide (c = '/' ∨ c = '?')

/-- Characters allowed in the scheme of a URL after the first one
(`urllib.parse` accepts letters, digits, `+`, `-`, `.`). -/
def isSchemeChar (c : Char) : Bool :=
  c.isAlphanum || decide (c = '+') || decide (c = '-') || decide (c = '.')

/-- Host characters accepted by the URL validator model. -/
def isHostChar (c : Char) : Bool :=
  c.isAlphanum || decide (c = '.') || decide (c = '-')

/- ### List-of-characters helpers -/

/-- Split a character list at the first character satisfying `p`:
returns the prefix of non-matching characters and the suffix starting at
the first match (empty if there is none). -/
def breakAt (p : Char → Bool) : List Char → List Char × List Char
  | [] => ([], [])
  | a :: rest =>
    if p a then ([], a :: rest)
    else
      let r := breakAt p rest
      (a :: r.1, r.2)

/-- Split a character list on every character satisfying `p`, keeping empty
groups: the model of Python `str.split(sep)` (for `p` matching exactly
`sep`) and, after discarding empty groups, of `str.split()`. -/
def splitPred (p : Char → Bool) : List Char → List (List Char)
  | [] => [[]]
  | a :: rest =>
    match splitPred p rest with
    | [] => [[]]
    | g :: gs => if p a then [] :: g :: gs else (a :: g) :: gs

/-- Drop the first character of a list, if any. -/
def tailOrNil : List Char → List Char
  | [] => []
  | _ :: t => t

/-- If `pre` is a prefix of `l`, return the rest of `l`; otherwise `none`. -/
def dropPre : List Char → List Char → Option (List Char)
  | [], l => some l
  | _ :: _, [] => none
  | p :: ps, c :: cs => if c = p then dropPre ps cs else none

/-- Numeric value of a list of ASCII digits (the core of Python `int`). -/
def digitsToNat (l : List Char) : Nat :=
  l.foldl (fun n c => 10 * n + (c.toNat - 48)) 0

/-- Strip leading and trailing Python whitespace. -/
def stripWs (l : List Char) : List Char :=
  ((l.dropWhile pyIsSpace).reverse.dropWhile pyIsSpace).reverse

/- ### Python numeric conversions -/

/-- Python `int(str)` after whitespace stripping: an optional sign followed
by a nonempty run of digits.  (Underscore digit separators and non-ASCII
digits, which the scraper never meets, are outside the model.)  `none`
models `int` raising `ValueError`. -/
def pyIntCore (l : List Char) : Option Int :=
  match l with
  | [] => none
  | c :: rest =>
    if c = '+' then
      if rest ≠ [] ∧ rest.all isDig then some (Int.ofNat (digitsToNat rest)) else none
    else if c = '-' then
      if rest ≠ [] ∧ rest.all isDig then some (-(Int.ofNat (digitsToNat rest))) else none
    else if (c :: rest).all isDig then some (Int.ofNat (digitsToNat (c :: rest))) else none

/-- Python `int(str)`: strips surrounding whitespace, then parses an
optionally signed digit run.  `none` models a raised `ValueError`. -/
def pyToInt (s : String) : Option Int := pyIntCore (stripWs s.data)

/-- Value of a plain decimal literal `intpart[.fracpart]` as a rational. -/
def decimalCore (l : List Char) : Option ℚ :=
  match splitPred isDot l with
  | [ip] => if ip ≠ [] ∧ ip.all isDig then some (digitsToNat ip) else none
  | [ip, fp] =>
    if (ip ++ fp) ≠ [] ∧ ip.all isDig ∧ fp.all isDig then
      some ((digitsToNat ip : ℚ) + (digitsToNat fp : ℚ) / ((10 : ℚ) ^ fp.length))
    else none
  | _ => none

/-- Python `float(str)` on the plain decimal fragment (optional sign,
digits, optional fraction part), with the value modelled exactly as a
rational.  Exponents, `inf` and `nan`, which never appear in a rating cell,
are outside the model.  `none` models a raised `ValueError`. -/
def pyToFloat (s : String) : Option ℚ :=
  match stripWs s.data with
  | '+' :: rest => decimalCore rest
  | '-' :: rest => (decimalCore rest).map (fun q => -q)
  | rest => decimalCore rest

/- ### Python string splitting -/

/-- Python `str.split(" ")`: split on each single space character, keeping
empty fields. -/
def splitOnSpace (s : String) : List String :=
  (splitPred (fun c => decide (c = ' ')) s.data).map String.mk

/-- Python `str.split()` (no argument): split on whitespace runs,
discarding empty fields. -/
def pySplit (s : String) : List String :=
  ((splitPred pyIsSpace s.data).filter (fun g => g ≠ [])).map String.mk

/-- Python `str.isdigit` on a whole string: nonempty and every character
`isdigit` (including the No-category digits `int` rejects). -/
def isPyDigitStr (s : String) : Bool := s.data ≠ [] && s.data.all pyIsDigit

/-- Python `int` applied to a token that passed `str.isdigit`: succeeds
with the base-10 value exactly when every character is a decimal digit
(category Nd); `none` models the `ValueError` `int` raises on the
remaining `isdigit`-class characters such as `²`. -/
def pyIntDigitsTok (l : List Char) : Option Nat :=
  if l.all (fun c => (pyDigitVal c).isSome) = true then
    some (l.foldl (fun n c => 10 * n + (pyDigitVal c).getD 0) 0)
  else none

/-- `int` applied to a known all-ASCII-digit string. -/
def strToNat (s : String) : Nat := digitsToNat s.data

/- ### `urllib.parse` model -/

/-- The components returned by `urllib.parse.urlparse`. -/
structure ParseResult where
  scheme : String
  netloc : String
  path : String
  params : String
  query : String
  fragment : String
deriving DecidableEq, Repr

/-- Scheme splitting of `urllib.parse.urlsplit`: if the text up to the
first `:` is a wellformed scheme, that (lower-cased) scheme is removed. -/
def splitScheme (u : List Char) : List Char × List Char :=
  match breakAt isColon u with
  | (before, ':' :: rest) =>
    if before ≠ [] ∧ before.all isSchemeChar ∧ (before.headD ' ').isAlpha then
      (before.map pyLower, rest)
    else ([], u)
  | _ => ([], u)

/-- Netloc splitting of `urllib.parse.urlsplit`: after `//`, the netloc
runs up to the next `/`, `?` or `#`. -/
def splitNetloc (u : List Char) : List Char × List Char :=
  match u with
  | '/' :: '/' :: rest => breakAt isNetlocEnd rest
  | _ => ([], u)

/-- Model of `urllib.parse.urlparse` for the absolute URLs the scraper
handles.  (The parameters component is left empty: splitting `;params`
off the last path segment never triggers on the scraper's inputs, which
contain no `;`.) -/
def urlparse (url : String) : ParseResult :=
  let s := splitScheme url.data
  let n := splitNetloc s.2
  let f := breakAt isHash n.2
  let q := breakAt isQmark f.1
  { scheme := String.mk s.1
    netloc := String.mk n.1
    path := String.mk q.1
    params := ""
    query := String.mk (tailOrNil q.2)
    fragment := String.mk (tailOrNil f.2) }

/-- Whether a character list starts with `/`. -/
def startsSlash : List Char → Bool
  | '/' :: _ => true
  | _ => false

/-- Whether a character list starts with `//`. -/
def startsDoubleSlash : List Char → Bool
  | '/' :: '/' :: _ => true
  | _ => false

/-- Model of `urllib.parse.urlunparse` (via `urlunsplit`) for the
components the scraper rebuilds. -/
def urlunparse (r : ParseResult) : String :=
  let url0 := if r.params = "" then r.path else r.path ++ ";" ++ r.params
  let url1 :=
    if r.netloc ≠ "" ∨ startsDoubleSlash url0.data then
      if url0.data ≠ [] ∧ ¬ startsSlash url0.data then
        "//" ++ r.netloc ++ "/" ++ url0
      else "//" ++ r.netloc ++ url0
    else url0
  let url2 := if r.scheme = "" then url1 else r.scheme ++ ":" ++ url1
  let url3 := if r.query = "" then url2 else url2 ++ "?" ++ r.query
  if r.fragment = "" then url3 else url3 ++ "#" ++ r.fragment

/- ### `src/utils/utils.py` -/

/-- Modelled from the external `validators.url` helper (third-party
library used by `is_valid_goodreads_url`): accepts an absolute URL with a
`http`, `https` or `ftp` scheme (case-insensitively), a nonempty host made
of letters, digits, dots and hyphens that contains a dot, followed by
nothing, or by a `/`- or `?`-initiated whitespace-free remainder.
(User-info, ports, IP-literal hosts and TLD checks of the library are
outside the model; the scraper's URLs never exercise them.) -/
def url_validator (u : String) : Bool :=
  let l := u.data.map pyLower
  let afterScheme :=
    match dropPre "https://".data l with
    | some r => some r
    | none =>
      match dropPre "http://".data l with
      | some r => some r
      | none => dropPre "ftp://".data l
  match afterScheme with
  | none => false
  | some r =>
    let hr := breakAt isHostEnd r
    hr.1 ≠ [] && hr.1.all isHostChar && hr.1.any isDot &&
      (match hr.2 with
       | [] => true
       | c :: rs => (c :: rs).all (fun x => !pyIsSpace x) && (decide (c = '/') || rs ≠ []))

/-- `re.match` of `r"https?://www\.goodreads\.com/.*"` with `IGNORECASE`:
a case-insensitive prefix match (the trailing `.*` is satisfiable by the
empty string, so only the prefix matters). -/
def grUrlPatternMatch (u : String) : Bool :=
  let l := u.data.map pyLower
  (dropPre "http://www.goodreads.com/".data l).isSome ||
    (dropPre "https://www.goodreads.com/".data l).isSome

/-- `is_valid_goodreads_url` from `src/utils/utils.py`: the URL passes the
external validator and matches the Goodreads pattern. -/
def is_valid_goodreads_url (url : String) : Bool :=
  url_validator url && grUrlPatternMatch url

/-- `re.match` of `r"^https:\/\/www\.goodreads\.com\/user\/show\/\d+$"`:
the fixed profile prefix followed by a nonempty run of digits to the end
of the string. -/
def profilePatternMatch (u : String) : Bool :=
  match dropPre "https://www.goodreads.com/user/show/".data u.data with
  | some rest => rest ≠ [] && rest.all isDig
  | none => false

/-- `is_goodreads_profile` from `src/utils/utils.py`. -/
def is_goodreads_profile (url : String) : Bool :=
  profilePatternMatch url && is_valid_goodreads_url url

/-- `create_shelf_url` from `src/utils/utils.py`: parse the profile URL,
take the last `/`-separated segment of its path as the user id, and
rebuild `/review/list/<id>` with query `shelf=read`. -/
def create_shelf_url (profile_url : String) : String :=
  let parsed := urlparse profile_url
  let user_id := String.mk ((splitPred isSlash parsed.path.data).getLastD [])
  let new_path := "/review/list/" ++ user_id
  urlunparse
    { scheme := parsed.scheme
      netloc := parsed.netloc
      path := new_path
      params := ""
      query := "shelf=read"
      fragment := "" }

/-- `extract_author_id` from `src/utils/utils.py`: the last `/`-separated
segment of the URL path, truncated at its first `.`. -/
def extract_author_id (author_url : String) : String :=
  let author_path := (urlparse author_url).path
  String.mk ((splitPred isDot ((splitPred isSlash author_path.data).getLastD [])).headD [])

/-- The `int(extract_author_id(author_link))` conversion performed by
`process_book`; `none` models the raised `ValueError`. -/
def author_id_int (author_url : String) : Option Int :=
  pyToInt (extract_author_id author_url)

/-- The `for p in parts: if p.isdigit(): return int(p)` loop of
`extract_num_pages`, with the raise channel made explicit: the outer
`none` models `int` raising `ValueError` on the first `isdigit`-passing
token, `some none` models falling off the loop (Python's implicit
`None`), and `some (some n)` models `return int(p)`. -/
def firstDigitToken : List String → Option (Option Nat)
  | [] => some none
  | p :: rest =>
    if isPyDigitStr p = true then (pyIntDigitsTok p.data).map some
    else firstDigitToken rest

/-- `extract_num_pages` from `src/utils/utils.py`: split on whitespace and
return the first `isdigit`-passing token as a number.  `some none` models
Python's implicit `None` when no token qualifies; the outer `none` models
the `ValueError` raised when the first `isdigit`-passing token contains a
digit character `int` rejects (e.g. `²`). -/
def extract_num_pages (page_string : String) : Option (Option Nat) :=
  firstDigitToken (pySplit page_string)

/-- `parse_infinite_status` from `src/utils/utils.py`: split the status
text on single spaces, read field 2 as the total and field 0 as the loaded
count.  `none` models the raised `IndexError` / `ValueError`. -/
def parse_infinite_status (text : String) : Option (Int × Int) :=
  let fields := splitOnSpace text
  match fields.get? 2 with
  | none => none
  | some s2 =>
    match pyToInt s2 with
    | none => none
    | some remaining =>
      match fields.get? 0 with
      | none => none
      | some s0 =>
        match pyToInt s0 with
        | none => none
        | some current => some (current, remaining)

/- ### `src/scraper/scrape.py` -/

/-- One raw book row as the DOM queries of `process_book` deliver it:
the text content of each field cell the function reads. -/
structure RawBook where
  isbn : String
  isbn13 : String
  title : String
  author_name : String
  author_link : String
  avg_rating_raw : String
  user_rating : String
  pages_raw : String
  publishing_date : String
  started_date : String
  finished_date : String
  added_date : String
deriving DecidableEq, Repr

/-- The typed record `process_book` assembles (the Python dict). -/
structure BookRecord where
  title : String
  isbn : String
  isbn13 : String
  author_name : String
  author_id : Int
  author_link : String
  avg_rating : ℚ
  user_rating : String
  num_pages : Option Nat
  publishing_date : String
  started_date : String
  finished_date : String
  added_date : String
deriving DecidableEq, Repr

/-- `process_book` from `src/utils/utils.py`, on the raw field texts of
one row: converts the author link to an integer id and the rating text to
a float (both fatal on failure, modelled by `none`), then extracts the
page count — which degrades to `none` on a missing digit token but, like
every uncaught exception, propagates the `ValueError` `int` raises on an
`isdigit`-passing token it cannot convert — and passes every other field
through unchanged.  The three conversions are sequenced in source order
(author id, then rating, then pages). -/
def process_book (book : RawBook) : Option BookRecord :=
  match author_id_int book.author_link with
  | none => none
  | some author_id =>
    match pyToFloat book.avg_rating_raw with
    | none => none
    | some avg_rating =>
      match extract_num_pages book.pages_raw with
      | none => none
      | some num_pages =>
        some
          { title := book.title
            isbn := book.isbn
            isbn13 := book.isbn13
            author_name := book.author_name
            author_id := author_id
            author_link := book.author_link
            avg_rating := avg_rating
            user_rating := book.user_rating
            num_pages := num_pages
            publishing_date := book.publishing_date
            started_date := book.started_date
            finished_date := book.finished_date
            added_date := book.added_date }

/-- The `while current_books < remaining_books` loop of `scroll_shelf`,
as a function of the sequence of later progress reads the loop observes
after each end-of-document key press.  `total` is the total from the
initial parse (line `current_books, remaining_books = ...`); each loop
iteration re-parses and keeps only the loaded count (line
`current_books, _ = ...`).  Returns the number of key presses issued and
the final loaded count; `none` models the reads running out while the
loop still wants more (a stalled page). -/
def scrollAux (total : Nat) : Nat → List (Nat × Nat) → Nat → Option (Nat × Nat)
  | current, [], signals =>
    if current < total then none else some (signals, current)
  | current, (c, _) :: rest, signals =>
    if current < total then scrollAux total c rest (signals + 1)
    else some (signals, current)

/-- `scroll_shelf` from `src/scraper/scrape.py`: the first read is the
initial `parse_infinite_status`, the rest are the per-iteration re-reads.
Returns `(signals issued, final loaded count)`. -/
def scroll_shelf (reads : List (Nat × Nat)) : Option (Nat × Nat) :=
  match reads with
  | [] => none
  | (current, remaining) :: rest => scrollAux remaining current rest 0

/-- A session event of one `scrape_shelf` invocation.  `acquireSession`
is the `setup_browser()` call (modelled from the spec: acquire a browsing
session, an external collaborator — the function is imported by
`scrape.py` but its definition is not part of the sources), and
`releaseSession` is `browser.quit()`. -/
inductive Event where
  | acquireSession
  | navigate
  | waitBody
  | dismissOverlay
  | waitStatus
  | loadScroll
  | findBooks
  | extractBook (i : Nat)
  | releaseSession
deriving DecidableEq, Repr

/-- The environment one `scrape_shelf` invocation runs against: whether
the body and infinite-status waits succeed, the progress reads the scroll
loop observes, and the raw book rows found after loading. -/
structure ShelfEnv where
  bodyFound : Bool
  statusFound : Bool
  reads : List (Nat × Nat)
  books : List RawBook

/-- The `[process_book(browser, book) for book in books]` comprehension,
with the trace of per-item extraction events; a failing item aborts the
comprehension at that point. -/
def extractAll : List RawBook → Nat → Except String (List BookRecord) × List Event
  | [], _ => (Except.ok [], [])
  | b :: rest, i =>
    match process_book b with
    | none => (Except.error "process_book failed", [Event.extractBook i])
    | some r =>
      match extractAll rest (i + 1) with
      | (Except.ok rs, evs) => (Except.ok (r :: rs), Event.extractBook i :: evs)
      | (Except.error e, evs) => (Except.error e, Event.extractBook i :: evs)

/-- `scrape_shelf` from `src/scraper/scrape.py`, as a function of its
environment, returning the result together with the trace of session
events.  A failed bounded wait, a failed scroll loop or a failing
`process_book` raises, ending the invocation at that point — in the
source there is no `try`/`finally` around `browser.quit()`, so the
release event is emitted only after every prior step has succeeded. -/
def scrape_shelf (env : ShelfEnv) : Except String (List BookRecord) × List Event :=
  let t0 := [Event.acquireSession, Event.navigate]
  if env.bodyFound = false then
    (Except.error "body wait timed out", t0 ++ [Event.waitBody])
  else
    let t1 := t0 ++ [Event.waitBody, Event.dismissOverlay]
    if env.statusFound = false then
      (Except.error "status wait timed out", t1 ++ [Event.waitStatus])
    else
      let t2 := t1 ++ [Event.waitStatus]
      match scroll_shelf env.reads with
      | none => (Except.error "scroll failed", t2 ++ [Event.loadScroll])
      | some _ =>
        let t3 := t2 ++ [Event.loadScroll, Event.findBooks]
        match extractAll env.books 0 with
        | (Except.error e, evs) => (Except.error e, t3 ++ evs)
        | (Except.ok rs, evs) => (Except.ok rs, t3 ++ evs ++ [Event.releaseSession])

/-- Path-segment characters of an author name slug: no `/`, `#` or `?`. -/
def isSegOk (c : Char) : Bool := !isSlash c && !isHash c && !isQmark c

/-- A raw row whose rating cell is not parseable as a float. -/
def rawBookBadRating : RawBook :=
  { isbn := "", isbn13 := "", title := "T", author_name := "A"
    author_link := "https://www.goodreads.com/author/show/1.A"
    avg_rating_raw := "really liked it", user_rating := "", pages_raw := ""
    publishing_date := "", started_date := "", finished_date := "", added_date := "" }

/-- A raw row whose rating cell reads `"6.0"`. -/
def rawBookSixRating : RawBook :=
  { isbn := "", isbn13 := "", title := "T", author_name := "A"
    author_link := "https://www.goodreads.com/author/show/7.A"
    avg_rating_raw := "6.0", user_rating := "", pages_raw := ""
    publishing_date := "", started_date := "", finished_date := "", added_date := "" }

/- ### Helper lemmas: splitting and prefix machinery -/

theorem breakAt_no (p : Char → Bool) (l : List Char) (h : ∀ c ∈ l, p c = false) :
    breakAt p l = (l, []) := by
  induction l with
  | nil => rfl
  | cons a rest ih =>
    have ha : p a = false := h a (List.mem_cons_self a rest)
    have hr := ih (fun c hc => h c (List.mem_cons_of_mem a hc))
    simp [breakAt, ha, hr]

theorem breakAt_sep (p : Char → Bool) (a : Char) (ha : p a = true)
    (A B : List Char) (hA : ∀ c ∈ A, p c = false) :
    breakAt p (A ++ a :: B) = (A, a :: B) := by
  induction A with
  | nil => simp [breakAt, ha]
  | cons x xs ih =>
    have hx : p x = false := hA x (List.mem_cons_self x xs)
    have hr := ih (fun c hc => hA c (List.mem_cons_of_mem x hc))
    simp [breakAt, hx, hr]

theorem splitPred_ne_nil (p : Char → Bool) (l : List Char) : splitPred p l ≠ [] := by
  cases l with
  | nil => simp [splitPred]
  | cons a rest =>
    simp only [splitPred]
    match h : splitPred p rest with
    | [] => simp
    | g :: gs => by_cases hp : p a = true <;> simp [hp]

theorem splitPred_no (p : Char → Bool) (l : List Char) (h : ∀ c ∈ l, p c = false) :
    splitPred p l = [l] := by
  induction l with
  | nil => rfl
  | cons a rest ih =>
    have ha : p a = false := h a (List.mem_cons_self a rest)
    have hr := ih (fun c hc => h c (List.mem_cons_of_mem a hc))
    simp [splitPred, hr, ha]

theorem splitPred_append_sep (p : Char → Bool) (a : Char) (ha : p a = true)
    (A B : List Char) :
    splitPred p (A ++ a :: B) = splitPred p A ++ splitPred p B := by
  induction A with
  | nil =>
    simp only [List.nil_append, splitPred]
    match h : splitPred p B with
    | [] => exact absurd h (splitPred_ne_nil p B)
    | g :: gs => simp [ha]
  | cons x xs ih =>
    obtain ⟨g, gs, hsx⟩ : ∃ g gs, splitPred p xs = g :: gs := by
      match hx : splitPred p xs with
      | [] => exact absurd hx (splitPred_ne_nil p xs)
      | g :: gs => exact ⟨g, gs, rfl⟩
    obtain ⟨g2, gs2, hsab⟩ : ∃ g2 gs2, splitPred p (xs ++ a :: B) = g2 :: gs2 := by
      match hx : splitPred p (xs ++ a :: B) with
      | [] => exact absurd hx (splitPred_ne_nil p (xs ++ a :: B))
      | g :: gs => exact ⟨g, gs, rfl⟩
    have hg : g2 = g ∧ gs2 = gs ++ splitPred p B := by
      have h2 := ih
      rw [hsab, hsx, List.cons_append] at h2
      exact ⟨(List.cons.injEq _ _ _ _ ▸ h2).1, (List.cons.injEq _ _ _ _ ▸ h2).2⟩
    rw [List.cons_append]
    simp only [splitPred, hsab, hsx]
    by_cases hx : p x = true
    · simp [hx, hg.1, hg.2]
    · simp only [Bool.not_eq_true] at hx
      simp [hx, hg.1, hg.2]

theorem dropPre_self (p r : List Char) : dropPre p (p ++ r) = some r := by
  induction p with
  | nil => rfl
  | cons a ps ih => simp [dropPre, ih]

theorem dropPre_sound (p l r : List Char) (h : dropPre p l = some r) :
    l = p ++ r := by
  induction p generalizing l with
  | nil =>
    simp only [dropPre, Option.some.injEq] at h
    simp [h]
  | cons a ps ih =>
    cases l with
    | nil => simp [dropPre] at h
    | cons c cs =>
      simp only [dropPre] at h
      by_cases hc : c = a
      · subst hc
        simp only [if_pos rfl] at h
        simpa using ih cs h
      · simp [hc] at h

/- ### Helper lemmas: digits -/

theorem isDig_bounds (c : Char) (h : isDig c = true) : 48 ≤ c.toNat ∧ c.toNat ≤ 57 :=
  of_decide_eq_true h

theorem isDig_ne (c d : Char) (hd : isDig d = false) (h : isDig c = true) : c ≠ d := by
  intro hc
  subst hc
  rw [h] at hd
  exact Bool.noConfusion hd

theorem isDig_pyLower (c : Char) (h : isDig c = true) : pyLower c = c := by
  have hb := isDig_bounds c h
  unfold pyLower
  rw [if_neg]
  omega

theorem isDig_not_space (c : Char) (h : isDig c = true) : pyIsSpace c = false := by
  apply decide_eq_false
  rintro (hc | hc | hc | hc | hc | hc) <;> (subst hc; exact absurd h (by decide))

theorem isDig_not_netlocEnd (c : Char) (h : isDig c = true) : isNetlocEnd c = false := by
  apply decide_eq_false
  rintro (hc | hc | hc) <;> (subst hc; exact absurd h (by decide))

theorem isDig_not_hostEnd (c : Char) (h : isDig c = true) : isHostEnd c = false := by
  apply decide_eq_false
  rintro (hc | hc) <;> (subst hc; exact absurd h (by decide))

theorem isDig_not_slash (c : Char) (h : isDig c = true) : isSlash c = false := by
  apply decide_eq_false
  intro hc
  subst hc
  exact absurd h (by decide)

theorem isDig_not_dot (c : Char) (h : isDig c = true) : isDot c = false := by
  apply decide_eq_false
  intro hc
  subst hc
  exact absurd h (by decide)

theorem isDig_not_hash (c : Char) (h : isDig c = true) : isHash c = false := by
  apply decide_eq_false
  intro hc
  subst hc
  exact absurd h (by decide)

theorem isDig_not_qmark (c : Char) (h : isDig c = true) : isQmark c = false := by
  apply decide_eq_false
  intro hc
  subst hc
  exact absurd h (by decide)

theorem all_map_pyLower (l : List Char) (h : l.all isDig = true) :
    l.map pyLower = l := by
  induction l with
  | nil => rfl
  | cons a rest ih =>
    simp only [List.all_cons, Bool.and_eq_true] at h
    simp [isDig_pyLower a h.1, ih h.2]

theorem dropWhile_no (p : Char → Bool) (l : List Char) (h : ∀ c ∈ l, p c = false) :
    l.dropWhile p = l := by
  cases l with
  | nil => rfl
  | cons a rest => simp [List.dropWhile_cons, h a (List.mem_cons_self a rest)]

theorem stripWs_digits (l : List Char) (h : l.all isDig = true) : stripWs l = l := by
  have hmem : ∀ c ∈ l, pyIsSpace c = false := fun c hc =>
    isDig_not_space c (List.all_eq_true.mp h c hc)
  unfold stripWs
  rw [dropWhile_no pyIsSpace l hmem,
    dropWhile_no pyIsSpace l.reverse (fun c hc => hmem c (List.mem_reverse.mp hc)),
    List.reverse_reverse]

theorem pyToInt_digits (l : List Char) (h0 : l ≠ []) (h : l.all isDig = true) :
    pyToInt (String.mk l) = some (Int.ofNat (digitsToNat l)) := by
  show pyIntCore (stripWs l) = some (Int.ofNat (digitsToNat l))
  rw [stripWs_digits l h]
  cases l with
  | nil => exact absurd rfl h0
  | cons c rest =>
    have hc : isDig c = true := by
      simp only [List.all_cons, Bool.and_eq_true] at h
      exact h.1
    simp only [pyIntCore]
    rw [if_neg (isDig_ne c '+' (by decide) hc), if_neg (isDig_ne c '-' (by decide) hc),
      if_pos h]

/- ### Scroll-loop lemmas -/

theorem scrollAux_step (total current c t2 : Nat) (rest : List (Nat × Nat)) (signals : Nat)
    (h : current < total) :
    scrollAux total current ((c, t2) :: rest) signals = scrollAux total c rest (signals + 1) := by
  simp [scrollAux, h]

theorem scrollAux_stop (total current : Nat) (reads : List (Nat × Nat)) (signals : Nat)
    (h : total ≤ current) : scrollAux total current reads signals = some (signals, current) := by
  cases reads with
  | nil => simp [scrollAux, Nat.not_lt.mpr h]
  | cons r rest =>
    obtain ⟨c, t2⟩ := r
    simp [scrollAux, Nat.not_lt.mpr h]

theorem scrollAux_final_ge (total : Nat) (reads : List (Nat × Nat))
    (current signals n final : Nat)
    (h : scrollAux total current reads signals = some (n, final)) : total ≤ final := by
  induction reads generalizing current signals with
  | nil =>
    by_cases hc : current < total
    · simp [scrollAux, hc] at h
    · simp only [scrollAux, if_neg hc, Option.some.injEq, Prod.mk.injEq] at h
      omega
  | cons r rest ih =>
    obtain ⟨c, t2⟩ := r
    by_cases hc : current < total
    · rw [scrollAux_step total current c t2 rest signals hc] at h
      exact ih c (signals + 1) h
    · rw [scrollAux_stop total current _ signals (Nat.not_lt.mp hc)] at h
      simp only [Option.some.injEq, Prod.mk.injEq] at h
      omega

theorem scrollAux_map_fst (reads reads' : List (Nat × Nat))
    (h : reads.map Prod.fst = reads'.map Prod.fst) (total current signals : Nat) :
    scrollAux total current reads signals = scrollAux total current reads' signals := by
  induction reads generalizing reads' current signals with
  | nil =>
    cases reads' with
    | nil => rfl
    | cons r rest => simp at h
  | cons r rest ih =>
    cases reads' with
    | nil => simp at h
    | cons r' rest' =>
      obtain ⟨c, t2⟩ := r
      obtain ⟨c', t2'⟩ := r'
      simp only [List.map_cons, List.cons.injEq] at h
      by_cases hc : current < total
      · rw [scrollAux_step total current c t2 rest signals hc,
          scrollAux_step total current c' t2' rest' signals hc, h.1]
        exact ih rest' h.2 c' (signals + 1)
      · rw [scrollAux_stop total current _ signals (Nat.not_lt.mp hc),
          scrollAux_stop total current _ signals (Nat.not_lt.mp hc)]

/- ### Extraction-loop lemmas -/

theorem firstDigitToken_find (l : List String) :
    firstDigitToken l =
      (match l.find? isPyDigitStr with
       | none => some none
       | some t => (pyIntDigitsTok t.data).map some) := by
  induction l with
  | nil => rfl
  | cons p rest ih =>
    by_cases hp : isPyDigitStr p = true
    · simp [firstDigitToken, List.find?_cons, hp]
    · simp only [Bool.not_eq_true] at hp
      simp [firstDigitToken, List.find?_cons, hp, ih]

theorem extractAll_no_release (books : List RawBook) (i : Nat) :
    Event.releaseSession ∉ (extractAll books i).2 := by
  induction books generalizing i with
  | nil => simp [extractAll]
  | cons b rest ih =>
    simp only [extractAll]
    cases hp : process_book b with
    | none => simp
    | some r =>
      cases hrest : extractAll rest (i + 1) with
      | mk res evs =>
        have hmem : Event.releaseSession ∉ evs := by
          have h2 := ih (i + 1)
          rw [hrest] at h2
          exact h2
        cases res with
        | ok rs => simp [List.mem_cons, hmem]
        | error e => simp [List.mem_cons, hmem]

/- ### Claim C1 -/

/-- Claim C1 (amended): for every status text such that splitting on the
single space character yields at least three fields whose first field
parses as the integer `a` and whose third field parses as the integer `b`,
`parse_infinite_status` returns exactly `(a, b)`; in particular
`"30 of 321 loaded"` yields `(30, 321)`. -/
theorem c1_thm :
    (∀ (text : String) (a b : Int) (s0 s2 : String),
        (splitOnSpace text).get? 0 = some s0 →
        (splitOnSpace text).get? 2 = some s2 →
        pyToInt s0 = some a → pyToInt s2 = some b →
        parse_infinite_status text = some (a, b)) ∧
    parse_infinite_status "30 of 321 loaded" = some (30, 321) := by
  constructor
  · intro text a b s0 s2 h0 h2 ha hb
    simp only [parse_infinite_status, h2, hb, h0, ha]
  · decide

/-- Claim C1 witness: the general part applied to `"12 of 57 loaded"`. -/
theorem c1_witness : parse_infinite_status "12 of 57 loaded" = some (12, 57) :=
  c1_thm.1 "12 of 57 loaded" 12 57 "12" "57" (by decide) (by decide) (by decide) (by decide)

/-- Claim C1 counterexample: the text `"30  of 321 loaded"` (two spaces)
consists of four whitespace-separated tokens whose first token parses as
30 and whose third token parses as 321, yet `parse_infinite_status` does
not return `(30, 321)` — it raises, because `str.split(" ")` also yields
the empty field between the two spaces, making field 2 the non-numeric
`"of"`. -/
theorem c1_counterexample :
    3 ≤ (pySplit "30  of 321 loaded").length ∧
    pyToInt ((pySplit "30  of 321 loaded").getD 0 "") = some 30 ∧
    pyToInt ((pySplit "30  of 321 loaded").getD 2 "") = some 321 ∧
    parse_infinite_status "30  of 321 loaded" ≠ some (30, 321) := by
  refine ⟨by decide, by decide, by decide, by decide⟩

/- ### Claim C5 -/

/-- Claim C5 (amended): `parse_infinite_status` raises (returns `none`)
exactly when splitting the text on the single space character yields
fewer than three fields, or the first or third field is not parseable as
an integer. -/
theorem c5_thm (text : String) :
    parse_infinite_status text = none ↔
      ((splitOnSpace text).length < 3 ∨
        pyToInt ((splitOnSpace text).getD 2 "") = none ∨
        pyToInt ((splitOnSpace text).getD 0 "") = none) := by
  cases h2 : (splitOnSpace text).get? 2 with
  | none =>
    have hlen : (splitOnSpace text).length ≤ 2 := List.get?_eq_none.mp h2
    constructor
    · intro _
      exact Or.inl (by omega)
    · intro _
      simp only [parse_infinite_status, h2]
  | some s2 =>
    have hlen : 2 < (splitOnSpace text).length := (List.get?_eq_some.mp h2).1
    have hgd2 : (splitOnSpace text).getD 2 "" = s2 := by
      rw [List.getD_eq_getElem?_getD, ← List.get?_eq_getElem?, h2]
      rfl
    obtain ⟨s0, h0⟩ : ∃ s0, (splitOnSpace text).get? 0 = some s0 := by
      cases h0 : (splitOnSpace text).get? 0 with
      | none =>
        have := List.get?_eq_none.mp h0
        omega
      | some s => exact ⟨s, rfl⟩
    have hgd0 : (splitOnSpace text).getD 0 "" = s0 := by
      rw [List.getD_eq_getElem?_getD, ← List.get?_eq_getElem?, h0]
      rfl
    cases hb : pyToInt s2 with
    | none =>
      constructor
      · intro _
        exact Or.inr (Or.inl (hgd2 ▸ hb))
      · intro _
        simp only [parse_infinite_status, h2, hb]
    | some b =>
      cases ha : pyToInt s0 with
      | none =>
        constructor
        · intro _
          exact Or.inr (Or.inr (hgd0 ▸ ha))
        · intro _
          simp only [parse_infinite_status, h2, hb, h0, ha]
      | some a =>
        constructor
        · intro hnone
          simp only [parse_infinite_status, h2, hb, h0, ha] at hnone
          exact absurd hnone (by simp)
        · rintro (hl | hn | hn)
          · omega
          · rw [hgd2, hb] at hn
            exact Option.noConfusion hn
          · rw [hgd0, ha] at hn
            exact Option.noConfusion hn

/-- Claim C5 counterexample: the tab-separated text `"30\tof\t321"`
consists of exactly three whitespace-separated tokens whose first and
third tokens parse as the integers 30 and 321, so the claim says the
parser must not raise — but the code raises (`str.split(" ")` never
splits on tabs, so there is no field 2). -/
theorem c5_counterexample :
    (pySplit "30\tof\t321").length = 3 ∧
    pyToInt ((pySplit "30\tof\t321").getD 0 "") = some 30 ∧
    pyToInt ((pySplit "30\tof\t321").getD 2 "") = some 321 ∧
    parse_infinite_status "30\tof\t321" = none := by
  refine ⟨by decide, by decide, by decide, by decide⟩

/- ### Claim C2 -/

/-- Claim C2: on the read sequence `(0,100), (40,100), (100,100)` the
scroll loop issues exactly 2 end-of-document key presses and terminates
with loaded count 100, the total; in general the loop body consumes one
read per iteration while `loaded < total`, stops immediately when
`total ≤ loaded`, and any terminating run ends with `total ≤ loaded`. -/
theorem c2_thm :
    scroll_shelf [(0, 100), (40, 100), (100, 100)] = some (2, 100) ∧
    (∀ (total current c t2 : Nat) (rest : List (Nat × Nat)) (signals : Nat),
        current < total →
        scrollAux total current ((c, t2) :: rest) signals = scrollAux total c rest (signals + 1)) ∧
    (∀ (total current : Nat) (reads : List (Nat × Nat)) (signals : Nat),
        total ≤ current →
        scrollAux total current reads signals = some (signals, current)) ∧
    (∀ (total : Nat) (reads : List (Nat × Nat)) (current signals n final : Nat),
        scrollAux total current reads signals = some (n, final) → total ≤ final) :=
  ⟨by decide, scrollAux_step, scrollAux_stop, scrollAux_final_ge⟩

/-- Claim C2 witness: the three hypothesis-bearing parts applied at
concrete inputs. -/
theorem c2_witness :
    scrollAux 100 0 [(40, 100), (100, 100)] 0 = scrollAux 100 40 [(100, 100)] 1 ∧
    scrollAux 100 100 [] 5 = some (5, 100) ∧
    (100 : Nat) ≤ 100 :=
  ⟨c2_thm.2.1 100 0 40 100 [(100, 100)] 0 (by decide),
   c2_thm.2.2.1 100 100 [] 5 (by decide),
   c2_thm.2.2.2 100 [] 100 5 5 100 (c2_thm.2.2.1 100 100 [] 5 (by decide))⟩

/- ### Claim C9 -/

/-- Claim C9: the loop guard's total is the one from the initial parse and
is never updated — the totals of all later progress reads are discarded,
so runs whose later reads agree on loaded counts but differ arbitrarily in
totals are indistinguishable to the controller. -/
theorem c9_thm (current total : Nat) (rest rest' : List (Nat × Nat))
    (h : rest.map Prod.fst = rest'.map Prod.fst) :
    scroll_shelf ((current, total) :: rest) = scroll_shelf ((current, total) :: rest') :=
  scrollAux_map_fst rest rest' h total current 0

/-- Claim C9 witness: a changed total (99 versus 3) in the second read
does not change the outcome. -/
theorem c9_witness : scroll_shelf [(0, 2), (5, 99)] = scroll_shelf [(0, 2), (5, 3)] :=
  c9_thm 0 2 [(5, 99)] [(5, 3)] rfl

/- ### Claim C3 -/

/-- Claim C3 (amended): `extract_num_pages` splits the string on
whitespace and returns the integer value of the first token passing
`str.isdigit`, or the explicit absent marker when no token qualifies; it
never raises when that token consists of decimal digits, but it does
raise `ValueError` when the token passes `isdigit` with a digit character
that `int` rejects (e.g. the superscript `²`).  `"312 pages"` yields 312,
`"pages"` yields the absent marker, `"audiobook 5 hrs"` yields 5. -/
theorem c3_thm :
    (∀ s, extract_num_pages s =
        (match (pySplit s).find? isPyDigitStr with
         | none => some none
         | some t => (pyIntDigitsTok t.data).map some)) ∧
    (∀ s t, (pySplit s).find? isPyDigitStr = some t →
        t.data.all (fun c => (pyDigitVal c).isSome) = true →
        ∃ n, extract_num_pages s = some (some n)) ∧
    extract_num_pages "312 pages" = some (some 312) ∧
    extract_num_pages "pages" = some none ∧
    extract_num_pages "audiobook 5 hrs" = some (some 5) := by
  refine ⟨fun s => firstDigitToken_find (pySplit s), ?_, by decide, by decide, by decide⟩
  intro s t hf hall
  have h1 := firstDigitToken_find (pySplit s)
  rw [hf] at h1
  refine ⟨t.data.foldl (fun n c => 10 * n + (pyDigitVal c).getD 0) 0, ?_⟩
  show firstDigitToken (pySplit s) = _
  rw [h1]
  simp [pyIntDigitsTok, hall]

/-- Claim C3 witness: the decimal-digit totality part applied to
`"312 pages"` with its first digit token `"312"`. -/
theorem c3_witness : ∃ n, extract_num_pages "312 pages" = some (some n) :=
  c3_thm.2.1 "312 pages" "312" (by decide) (by decide)

/-- Claim C3 counterexample: on the input `"²"` the one whitespace token
passes `str.isdigit` (`"²".isdigit()` is true in Python), yet `int("²")`
raises `ValueError`, so `extract_num_pages` raises instead of returning —
refuting the claim that it never raises for any input string. -/
theorem c3_counterexample :
    isPyDigitStr "²" = true ∧ extract_num_pages "²" = none :=
  ⟨by decide, by decide⟩

/- ### Claim C6 -/

/-- Claim C6 (amended): `process_book` parses the raw `avg_rating` text as
a floating-point number and fails fatally when the text is not parseable;
the parsed value is stored in the record unchanged — no range check is
performed, so the produced `avg_rating` need not lie in `(0.0, 5.0]`. -/
theorem c6_thm :
    (∀ b : RawBook, pyToFloat b.avg_rating_raw = none → process_book b = none) ∧
    (∀ (b : RawBook) (r : BookRecord), process_book b = some r →
        pyToFloat b.avg_rating_raw = some r.avg_rating) := by
  constructor
  · intro b hb
    unfold process_book
    cases author_id_int b.author_link <;> simp [hb]
  · intro b r h
    unfold process_book at h
    cases ha : author_id_int b.author_link with
    | none =>
      rw [ha] at h
      exact Option.noConfusion h
    | some aid =>
      rw [ha] at h
      cases hf : pyToFloat b.avg_rating_raw with
      | none =>
        rw [hf] at h
        exact Option.noConfusion h
      | some q =>
        rw [hf] at h
        cases hn : extract_num_pages b.pages_raw with
        | none =>
          rw [hn] at h
          exact Option.noConfusion h
        | some np =>
          rw [hn] at h
          injection h with h2
          rw [← h2]

/-- Claim C6 witness: the fatal-failure part applied to a row with an
unparseable rating cell. -/
theorem c6_witness : process_book rawBookBadRating = none :=
  c6_thm.1 rawBookBadRating (by decide)

/-- Claim C6 counterexample: a row whose rating cell reads `"6.0"`
produces a `BookRecord` whose `avg_rating` is 6, which does not lie in
the claimed range `(0.0, 5.0]` — the code performs no range check. -/
theorem c6_counterexample :
    (process_book rawBookSixRating).map BookRecord.avg_rating = some 6 ∧
    ¬ ((0 : ℚ) < 6 ∧ (6 : ℚ) ≤ 5) := by
  constructor
  · have hmap : (process_book rawBookSixRating).map BookRecord.avg_rating
        = pyToFloat rawBookSixRating.avg_rating_raw := rfl
    have h6 : pyToFloat rawBookSixRating.avg_rating_raw
        = some ((digitsToNat ['6'] : ℚ) + (digitsToNat ['0'] : ℚ) / (10 : ℚ) ^ ['0'].length) := rfl
    have hval : ((digitsToNat ['6'] : ℚ) + (digitsToNat ['0'] : ℚ) / (10 : ℚ) ^ ['0'].length)
        = 6 := by
      have d6 : digitsToNat ['6'] = 6 := rfl
      have d0 : digitsToNat ['0'] = 0 := rfl
      rw [d6, d0]
      norm_num
    rw [hmap, h6, hval]
  · intro h
    have h5 := h.2
    norm_num at h5

/- ### Claim C7 -/

/-- Claim C7 (amended): `scrape_shelf` releases the browsing session
exactly once on the success path — after all items have been extracted and
as the last action before the result is returned — but on every failing
exit path the session is not released at all (the source has no
`try`/`finally` around `browser.quit()`). -/
theorem c7_thm :
    (∀ (env : ShelfEnv) (rs : List BookRecord) (t : List Event),
        scrape_shelf env = (Except.ok rs, t) →
        List.count Event.releaseSession t = 1 ∧ t.getLast? = some Event.releaseSession) ∧
    (∀ (env : ShelfEnv) (e : String) (t : List Event),
        scrape_shelf env = (Except.error e, t) →
        List.count Event.releaseSession t = 0) := by
  constructor
  · rintro ⟨bf, sf, reads, books⟩ rs t h
    cases bf with
    | false => simp [scrape_shelf] at h
    | true =>
      cases sf with
      | false => simp [scrape_shelf] at h
      | true =>
        simp only [scrape_shelf] at h
        cases hscroll : scroll_shelf reads with
        | none =>
          rw [hscroll] at h
          simp at h
        | some pr =>
          rw [hscroll] at h
          cases hex : extractAll books 0 with
          | mk res evs =>
            rw [hex] at h
            cases res with
            | error e => simp at h
            | ok rs2 =>
              have hnorel : Event.releaseSession ∉ evs := by
                have h2 := extractAll_no_release books 0
                rw [hex] at h2
                exact h2
              injection h with hl hr
              rw [← hr]
              refine ⟨?_, ?_⟩
              · rw [List.count_append, List.count_append,
                  List.count_eq_zero.mpr hnorel]
                decide
              · exact List.getLast?_concat _
  · rintro ⟨bf, sf, reads, books⟩ e t h
    cases bf with
    | false =>
      simp only [scrape_shelf] at h
      injection h with hl hr
      rw [← hr]
      decide
    | true =>
      cases sf with
      | false =>
        simp only [scrape_shelf] at h
        injection h with hl hr
        rw [← hr]
        decide
      | true =>
        simp only [scrape_shelf] at h
        cases hscroll : scroll_shelf reads with
        | none =>
          rw [hscroll] at h
          injection h with hl hr
          rw [← hr]
          decide
        | some pr =>
          rw [hscroll] at h
          cases hex : extractAll books 0 with
          | mk res evs =>
            rw [hex] at h
            cases res with
            | ok rs2 => simp at h
            | error e2 =>
              have hnorel : Event.releaseSession ∉ evs := by
                have h2 := extractAll_no_release books 0
                rw [hex] at h2
                exact h2
              injection h with hl hr
              rw [← hr]
              rw [List.count_append, List.count_eq_zero.mpr hnorel]
              decide

/-- Claim C7 witness: the success-path part applied to an environment
where every step succeeds with an already fully loaded, empty shelf. -/
theorem c7_witness :
    (List.count Event.releaseSession
        [Event.acquireSession, Event.navigate, Event.waitBody, Event.dismissOverlay,
          Event.waitStatus, Event.loadScroll, Event.findBooks,
          Event.releaseSession] = 1) ∧
    (List.getLast? [Event.acquireSession, Event.navigate, Event.waitBody, Event.dismissOverlay,
        Event.waitStatus, Event.loadScroll, Event.findBooks,
        Event.releaseSession] = some Event.releaseSession) :=
  c7_thm.1 ⟨true, true, [(0, 0)], []⟩ [] _ rfl

/-- Claim C7 counterexample: when the infinite-status wait fails, the
invocation exits with an error and the trace contains no release event at
all, refuting release-exactly-once on every exit path. -/
theorem c7_counterexample :
    (scrape_shelf ⟨true, false, [], []⟩).1 = Except.error "status wait timed out" ∧
    List.count Event.releaseSession (scrape_shelf ⟨true, false, [], []⟩).2 = 0 :=
  ⟨rfl, by decide⟩

/- ### String and URL lemmas -/

theorem mk_data (s : String) : String.mk s.data = s := rfl

theorem digits_all_false (p : Char → Bool) (hp : ∀ c, isDig c = true → p c = false)
    (l : List Char) (h : l.all isDig = true) : ∀ c ∈ l, p c = false :=
  fun c hc => hp c (List.all_eq_true.mp h c hc)

theorem mem_append_all (p : Char → Bool) (A B : List Char)
    (hA : ∀ c ∈ A, p c = false) (hB : ∀ c ∈ B, p c = false) :
    ∀ c ∈ A ++ B, p c = false := by
  intro c hc
  rcases List.mem_append.mp hc with h | h
  · exact hA c h
  · exact hB c h

theorem mem_cons_all (p : Char → Bool) (a : Char) (B : List Char)
    (ha : p a = false) (hB : ∀ c ∈ B, p c = false) :
    ∀ c ∈ a :: B, p c = false := by
  intro c hc
  rcases List.mem_cons.mp hc with h | h
  · rw [h]
    exact ha
  · exact hB c h

theorem segOk_parts (c : Char) (h : isSegOk c = true) :
    isSlash c = false ∧ isHash c = false ∧ isQmark c = false := by
  simp only [isSegOk, Bool.and_eq_true, Bool.not_eq_true'] at h
  exact ⟨h.1.1, h.1.2, h.2⟩

/-- `urlparse` on a Goodreads profile URL with an all-digit trailing
segment: scheme `https`, host `www.goodreads.com`, path `/user/show/<id>`,
no params, query or fragment. -/
theorem urlparse_profile (id : String) (hd : id.data.all isDig = true) :
    urlparse ("https://www.goodreads.com/user/show/" ++ id)
      = ⟨"https", "www.goodreads.com", "/user/show/" ++ id, "", "", ""⟩ := by
  have h1 : splitScheme (("https://www.goodreads.com/user/show/" ++ id).data)
      = ("https".data, "//www.goodreads.com/user/show/".data ++ id.data) := rfl
  have h2 : splitNetloc ("//www.goodreads.com/user/show/".data ++ id.data)
      = ("www.goodreads.com".data, '/' :: ("user/show/".data ++ id.data)) := rfl
  have htail : ∀ c ∈ '/' :: ("user/show/".data ++ id.data), isHash c = false := by
    refine mem_cons_all _ _ _ (by decide)
      (mem_append_all _ _ _ (by decide) (digits_all_false isHash isDig_not_hash id.data hd))
  have htailq : ∀ c ∈ '/' :: ("user/show/".data ++ id.data), isQmark c = false := by
    refine mem_cons_all _ _ _ (by decide)
      (mem_append_all _ _ _ (by decide) (digits_all_false isQmark isDig_not_qmark id.data hd))
  have h3 : breakAt isHash ('/' :: ("user/show/".data ++ id.data))
      = ('/' :: ("user/show/".data ++ id.data), []) := breakAt_no _ _ htail
  have h4 : breakAt isQmark ('/' :: ("user/show/".data ++ id.data))
      = ('/' :: ("user/show/".data ++ id.data), []) := breakAt_no _ _ htailq
  simp only [urlparse, h1, h2, h3, h4]
  rfl

/-- `urlparse` on an author URL `https://<host>/author/show/<ds>.<nm>`. -/
theorem urlparse_author (host ds nm : String)
    (hhost : host.data.all (fun c => !isNetlocEnd c) = true)
    (hds : ds.data.all isDig = true)
    (hnm : nm.data.all isSegOk = true) :
    urlparse ("https://" ++ (host ++ ("/author/show/" ++ (ds ++ ("." ++ nm)))))
      = ⟨"https", host, "/author/show/" ++ (ds ++ ("." ++ nm)), "", "", ""⟩ := by
  have hd1 : ("https://" ++ (host ++ ("/author/show/" ++ (ds ++ ("." ++ nm))))).data
      = "https://".data ++ (host.data ++ ("/author/show/".data ++ (ds.data ++ (".".data ++ nm.data)))) := by
    simp only [String.data_append]
  have h1 : splitScheme ("https://".data ++ (host.data ++ ("/author/show/".data ++ (ds.data ++ (".".data ++ nm.data)))))
      = ("https".data,
         '/' :: '/' :: (host.data ++ ('/' :: ("author/show/".data ++ (ds.data ++ ('.' :: nm.data)))))) := rfl
  have hrest : ∀ c ∈ host.data, isNetlocEnd c = false := by
    intro c hc
    have h2 := List.all_eq_true.mp hhost c hc
    simpa using h2
  have h2 : breakAt isNetlocEnd (host.data ++ ('/' :: ("author/show/".data ++ (ds.data ++ ('.' :: nm.data)))))
      = (host.data, '/' :: ("author/show/".data ++ (ds.data ++ ('.' :: nm.data)))) :=
    breakAt_sep isNetlocEnd '/' (by decide) host.data _ hrest
  have htailh : ∀ c ∈ '/' :: ("author/show/".data ++ (ds.data ++ ('.' :: nm.data))), isHash c = false := by
    refine mem_cons_all _ _ _ (by decide) (mem_append_all _ _ _ (by decide) ?_)
    refine mem_append_all _ _ _ (digits_all_false isHash isDig_not_hash ds.data hds) ?_
    refine mem_cons_all _ _ _ (by decide) ?_
    intro c hc
    exact (segOk_parts c (List.all_eq_true.mp hnm c hc)).2.1
  have htailq : ∀ c ∈ '/' :: ("author/show/".data ++ (ds.data ++ ('.' :: nm.data))), isQmark c = false := by
    refine mem_cons_all _ _ _ (by decide) (mem_append_all _ _ _ (by decide) ?_)
    refine mem_append_all _ _ _ (digits_all_false isQmark isDig_not_qmark ds.data hds) ?_
    refine mem_cons_all _ _ _ (by decide) ?_
    intro c hc
    exact (segOk_parts c (List.all_eq_true.mp hnm c hc)).2.2
  have h3 : breakAt isHash ('/' :: ("author/show/".data ++ (ds.data ++ ('.' :: nm.data))))
      = ('/' :: ("author/show/".data ++ (ds.data ++ ('.' :: nm.data))), []) := breakAt_no _ _ htailh
  have h4 : breakAt isQmark ('/' :: ("author/show/".data ++ (ds.data ++ ('.' :: nm.data))))
      = ('/' :: ("author/show/".data ++ (ds.data ++ ('.' :: nm.data))), []) := breakAt_no _ _ htailq
  simp only [urlparse, hd1, h1, splitNetloc, h2, h3, h4]
  rfl

/-- Author-id extraction on a wellformed author URL: the extracted string
is the digit segment and its integer conversion its numeric value. -/
theorem author_id_extraction (host ds nm : String)
    (hhost : host.data.all (fun c => !isNetlocEnd c) = true)
    (hne : ds ≠ "") (hds : ds.data.all isDig = true)
    (hnm : nm.data.all isSegOk = true) :
    extract_author_id ("https://" ++ (host ++ ("/author/show/" ++ (ds ++ ("." ++ nm))))) = ds ∧
    author_id_int ("https://" ++ (host ++ ("/author/show/" ++ (ds ++ ("." ++ nm)))))
      = some (Int.ofNat (strToNat ds)) := by
  have hdsne : ds.data ≠ [] := by
    intro h
    exact hne (String.ext (h.trans rfl))
  have hup := urlparse_author host ds nm hhost hds hnm
  have hpshape : ("/author/show/" ++ (ds ++ ("." ++ nm))).data
      = "/author/show".data ++ '/' :: (ds.data ++ '.' :: nm.data) := by
    simp only [String.data_append]
    rfl
  have htail_noslash : ∀ c ∈ ds.data ++ '.' :: nm.data, isSlash c = false := by
    refine mem_append_all _ _ _ (digits_all_false isSlash isDig_not_slash ds.data hds) ?_
    refine mem_cons_all _ _ _ (by decide) ?_
    intro c hc
    exact (segOk_parts c (List.all_eq_true.mp hnm c hc)).1
  have hs1 : splitPred isSlash (("/author/show/" ++ (ds ++ ("." ++ nm))).data)
      = splitPred isSlash "/author/show".data ++ [ds.data ++ '.' :: nm.data] := by
    rw [hpshape, splitPred_append_sep isSlash '/' (by decide),
      splitPred_no isSlash _ htail_noslash]
  have hs2 : (splitPred isSlash (("/author/show/" ++ (ds ++ ("." ++ nm))).data)).getLastD []
      = ds.data ++ '.' :: nm.data := by
    rw [hs1]
    simp [List.getLastD_concat]
  have hds_nodot : ∀ c ∈ ds.data, isDot c = false :=
    digits_all_false isDot isDig_not_dot ds.data hds
  have hs3 : splitPred isDot (ds.data ++ '.' :: nm.data) = [ds.data] ++ splitPred isDot nm.data := by
    rw [splitPred_append_sep isDot '.' (by decide), splitPred_no isDot ds.data hds_nodot]
  have hs4 : (splitPred isDot (ds.data ++ '.' :: nm.data)).headD [] = ds.data := by
    rw [hs3]
    rfl
  have hx : extract_author_id ("https://" ++ (host ++ ("/author/show/" ++ (ds ++ ("." ++ nm))))) = ds := by
    simp only [extract_author_id, hup]
    rw [hs2, hs4, mk_data]
  refine ⟨hx, ?_⟩
  simp only [author_id_int, hx]
  have hp := pyToInt_digits ds.data hdsne hds
  rw [mk_data] at hp
  exact hp

/-- The profile regex match alone already entails the full
`is_valid_goodreads_url` check (validator plus Goodreads pattern). -/
theorem profile_pattern_entails_valid (u : String) (hp : profilePatternMatch u = true) :
    is_valid_goodreads_url u = true := by
  unfold profilePatternMatch at hp
  cases hdp : dropPre "https://www.goodreads.com/user/show/".data u.data with
  | none =>
    rw [hdp] at hp
    exact Bool.noConfusion hp
  | some rest =>
    rw [hdp] at hp
    simp only [Bool.and_eq_true, ne_eq, decide_eq_true_eq] at hp
    obtain ⟨hren, hdig⟩ := hp
    have hu : u.data = "https://www.goodreads.com/user/show/".data ++ rest :=
      dropPre_sound _ _ _ hdp
    have hlower : u.data.map pyLower = "https://www.goodreads.com/user/show/".data ++ rest := by
      rw [hu, List.map_append, all_map_pyLower rest hdig]
      rfl
    have hdp2 : dropPre "https://".data ("https://www.goodreads.com/user/show/".data ++ rest)
        = some ("www.goodreads.com".data ++ ('/' :: ("user/show/".data ++ rest))) :=
      dropPre_self "https://".data ("www.goodreads.com".data ++ ('/' :: ("user/show/".data ++ rest)))
    have hb : breakAt isHostEnd ("www.goodreads.com".data ++ ('/' :: ("user/show/".data ++ rest)))
        = ("www.goodreads.com".data, '/' :: ("user/show/".data ++ rest)) :=
      breakAt_sep isHostEnd '/' (by decide) "www.goodreads.com".data _ (by decide)
    have hnosp : ∀ c ∈ '/' :: ("user/show/".data ++ rest), pyIsSpace c = false :=
      mem_cons_all _ _ _ (by decide)
        (mem_append_all _ _ _ (by decide) (digits_all_false pyIsSpace isDig_not_space rest hdig))
    have hall : ('/' :: ("user/show/".data ++ rest)).all (fun x => !pyIsSpace x) = true :=
      List.all_eq_true.mpr (fun x hx => by rw [hnosp x hx]; rfl)
    have hv : url_validator u = true := by
      simp only [url_validator, hlower, hdp2, hb, hall]
      simp
      decide
    have hg : grUrlPatternMatch u = true := by
      simp only [grUrlPatternMatch, hlower]
      have hh2 : dropPre "https://www.goodreads.com/".data
          ("https://www.goodreads.com/user/show/".data ++ rest)
          = some ("user/show/".data ++ rest) :=
        dropPre_self "https://www.goodreads.com/".data ("user/show/".data ++ rest)
      rw [hh2]
      simp
    unfold is_valid_goodreads_url
    rw [hv, hg]
    rfl

/- ### Claim C4 -/

/-- Claim C4: author-id extraction takes the final segment of the URL
path, strips everything from the first `.` onward and converts the
remainder to an integer, failing fatally (returning the raised-error
marker) when the remainder is not parseable; a path ending in
`/author/show/12345.Jane_Doe` yields the integer 12345. -/
theorem c4_thm :
    (∀ (host ds nm : String),
        host.data.all (fun c => !isNetlocEnd c) = true →
        ds ≠ "" → ds.data.all isDig = true →
        nm.data.all isSegOk = true →
        extract_author_id ("https://" ++ (host ++ ("/author/show/" ++ (ds ++ ("." ++ nm))))) = ds ∧
        author_id_int ("https://" ++ (host ++ ("/author/show/" ++ (ds ++ ("." ++ nm)))))
          = some (Int.ofNat (strToNat ds))) ∧
    extract_author_id "https://www.goodreads.com/author/show/12345.Jane_Doe" = "12345" ∧
    author_id_int "https://www.goodreads.com/author/show/12345.Jane_Doe" = some 12345 ∧
    author_id_int "https://www.goodreads.com/author/show/unknown.author" = none :=
  ⟨fun host ds nm hhost hne hds hnm => author_id_extraction host ds nm hhost hne hds hnm,
   by decide, by decide, by decide⟩

/-- Claim C4 witness: the general part applied to the host
`www.goodreads.com`, id `99` and name `X`. -/
theorem c4_witness :
    extract_author_id ("https://" ++ ("www.goodreads.com" ++ ("/author/show/" ++ ("99" ++ ("." ++ "X"))))) = "99" ∧
    author_id_int ("https://" ++ ("www.goodreads.com" ++ ("/author/show/" ++ ("99" ++ ("." ++ "X")))))
      = some (Int.ofNat (strToNat "99")) :=
  c4_thm.1 "www.goodreads.com" "99" "X" (by decide) (by decide) (by decide) (by decide)

/- ### Claim C8 -/

/-- Claim C8: for every profile URL `https://www.goodreads.com/user/show/<id>`
with `<id>` a nonempty run of digits, `create_shelf_url` returns
`https://www.goodreads.com/review/list/<id>?shelf=read` — the trailing
numeric path segment rewritten into the listing path with the fixed
`shelf=read` query, preserving scheme and host. -/
theorem c8_thm (id : String) (hne : id ≠ "") (hd : id.data.all isDig = true) :
    create_shelf_url ("https://www.goodreads.com/user/show/" ++ id)
      = "https://www.goodreads.com/review/list/" ++ id ++ "?shelf=read" := by
  have hdne : id.data ≠ [] := by
    intro h
    exact hne (String.ext (h.trans rfl))
  have hparse := urlparse_profile id hd
  have hshape : ("/user/show/" ++ id).data = "/user/show".data ++ '/' :: id.data := by
    rw [String.data_append]
    rfl
  have hidslash : ∀ c ∈ id.data, isSlash c = false :=
    digits_all_false isSlash isDig_not_slash id.data hd
  have hsplit : splitPred isSlash (("/user/show/" ++ id).data)
      = splitPred isSlash "/user/show".data ++ [id.data] := by
    rw [hshape, splitPred_append_sep isSlash '/' (by decide), splitPred_no isSlash id.data hidslash]
  have hlast : (splitPred isSlash (("/user/show/" ++ id).data)).getLastD [] = id.data := by
    rw [hsplit]
    simp [List.getLastD_concat]
  simp only [create_shelf_url, hparse]
  rw [hlast, mk_data]
  have hun : urlunparse
      { scheme := "https", netloc := "www.goodreads.com", path := "/review/list/" ++ id,
        params := "", query := "shelf=read", fragment := "" }
      = "https" ++ ":" ++ ("//" ++ "www.goodreads.com" ++ ("/review/list/" ++ id)) ++ "?" ++ "shelf=read" := rfl
  rw [hun]
  refine String.ext ?_
  simp only [String.data_append, List.append_assoc]
  rfl

/-- Claim C8 witness: the theorem applied to the id `71341746`. -/
theorem c8_witness :
    create_shelf_url ("https://www.goodreads.com/user/show/" ++ "71341746")
      = "https://www.goodreads.com/review/list/" ++ "71341746" ++ "?shelf=read" :=
  c8_thm "71341746" (by decide) (by decide)

/- ### Claim C10 -/

/-- Claim C10: whenever `is_goodreads_profile` accepts a URL,
`is_valid_goodreads_url` accepts it as well; moreover the profile-pattern
match alone already entails the general check. -/
theorem c10_thm (u : String) :
    (is_goodreads_profile u = true → is_valid_goodreads_url u = true) ∧
    (profilePatternMatch u = true → is_valid_goodreads_url u = true) := by
  refine ⟨?_, profile_pattern_entails_valid u⟩
  intro hp
  unfold is_goodreads_profile at hp
  rw [Bool.and_eq_true] at hp
  exact hp.2

/-- Claim C10 witness: both parts applied to a concrete profile URL. -/
theorem c10_witness :
    is_valid_goodreads_url "https://www.goodreads.com/user/show/71341746" = true :=
  (c10_thm "https://www.goodreads.com/user/show/71341746").2 (by decide)
